import Mathlib

/-! Shallow embedding of the review-aggregation front end: the hotel
dashboard (`src/app/page.tsx`), the plain hotel review list
(`src/unnamed/part_001`) and the business-listing dashboard
(`src/unnamed/part_000`).  JavaScript numbers are embedded as rationals,
strings as lists of characters, and absent optional fields as `Option`. -/

/-- JavaScript `parseFloat(x.toFixed(2))`: rounding to two decimal places,
with ties toward positive infinity as ECMAScript `toFixed` specifies. -/
def round2 (x : ℚ) : ℚ := (round (x * 100) : ℤ) / 100

/-- JavaScript `v || 0` applied to an optional numeric field: an absent
(`undefined`) value is replaced by 0, a present number is kept (`0 || 0`
is 0 as well). -/
def orZero (o : Option ℚ) : ℚ := o.getD 0

/-- One review snippet (`ReviewSnippet` in `page.tsx`). -/
structure ReviewSnippet where
  rating : Option ℚ
  snippet : Option (List Char)
deriving DecidableEq

/-- One per-source record (`ReviewData` in `page.tsx`).  The optional
fields follow the documented input schema; `distribution` is embedded as
the entry list of the JavaScript object (key, value pairs). -/
structure ReviewData where
  source : List Char
  rating : Option ℚ
  count : Option ℚ
  distribution : Option (List (List Char × ℚ))
  reviews : List ReviewSnippet
deriving DecidableEq

/-- The summary object built in `page.tsx` (`summary` memo). -/
structure Summary where
  avgRating : ℚ
  totalReviews : ℚ
  sourceCount : ℕ
deriving DecidableEq

/-- The local `totalReviews` of the `summary` memo (`page.tsx` line 106):
`data.reduce((sum, item) => sum + (item.count || 0), 0)`. -/
def sourceTotalReviews (data : List ReviewData) : ℚ :=
  data.foldl (fun sum item => sum + orZero item.count) 0

/-- The local `weightedTotalRating` (`page.tsx` line 107):
`data.reduce((sum, item) => sum + (item.rating || 0) * (item.count || 0), 0)`. -/
def sourceWeightedTotal (data : List ReviewData) : ℚ :=
  data.foldl (fun sum item => sum + orZero item.rating * orZero item.count) 0

/-- The local `avgRating` (`page.tsx` line 108), before `toFixed`:
`totalReviews > 0 ? (weightedTotalRating / totalReviews) : 0`. -/
def unroundedAvg (data : List ReviewData) : ℚ :=
  if 0 < sourceTotalReviews data then sourceWeightedTotal data / sourceTotalReviews data else 0

/-- `summary` from `src/app/page.tsx` lines 104-114. -/
def summary (data : List ReviewData) : Summary :=
  if data.length = 0 then { avgRating := 0, totalReviews := 0, sourceCount := 0 }
  else
    { avgRating := round2 (unroundedAvg data)
      totalReviews := sourceTotalReviews data
      sourceCount := data.length }

/-- The five accumulators of the `combined` object in
`ratingDistributionData` (`page.tsx` line 117). -/
@[ext]
structure Combined where
  s5 : ℚ
  s4 : ℚ
  s3 : ℚ
  s2 : ℚ
  s1 : ℚ
deriving DecidableEq

/-- JavaScript `key.charAt(0)`: the one-character string holding the first
character, or the empty string when `key` is empty. -/
def charAt0 (s : List Char) : List Char :=
  match s with
  | [] => []
  | c :: _ => [c]

/-- The body of the inner loop of `ratingDistributionData` (`page.tsx`
lines 120-125): `combined.hasOwnProperty(key)` over the five fixed keys,
then `combined[key] += count`. -/
def addEntry (c : Combined) (e : List Char × ℚ) : Combined :=
  let key := charAt0 e.1
  if key = ['5'] then { c with s5 := c.s5 + e.2 }
  else if key = ['4'] then { c with s4 := c.s4 + e.2 }
  else if key = ['3'] then { c with s3 := c.s3 + e.2 }
  else if key = ['2'] then { c with s2 := c.s2 + e.2 }
  else if key = ['1'] then { c with s1 := c.s1 + e.2 }
  else c

/-- One iteration of `data.forEach(source => ...)` in
`ratingDistributionData`: the `if (source.distribution)` guard, then the
loop over `Object.entries(source.distribution)`. -/
def combineRecord (c : Combined) (r : ReviewData) : Combined :=
  match r.distribution with
  | none => c
  | some d => d.foldl addEntry c

/-- `ratingDistributionData` from `src/app/page.tsx` lines 116-135:
pairs (star rating, combined count), star 5 first. -/
def ratingDistributionData (data : List ReviewData) : List (ℚ × ℚ) :=
  let combined := data.foldl combineRecord ⟨0, 0, 0, 0, 0⟩
  [(5, combined.s5), (4, combined.s4), (3, combined.s3), (2, combined.s2), (1, combined.s1)]

/-- JavaScript `s.toLowerCase()` (ASCII range, as exercised here). -/
def lowerStr (s : List Char) : List Char := s.map Char.toLower

/-- Does `pat` occur at the start of `s`?  Helper for `containsSub`. -/
def headMatch : List Char → List Char → Bool
  | [], _ => true
  | _ :: _, [] => false
  | a :: as, b :: bs => a = b && headMatch as bs

/-- JavaScript `s.includes(pat)`: `pat` occurs in `s` as a contiguous
substring; the empty pattern always matches. -/
def containsSub (pat : List Char) : List Char → Bool
  | [] => headMatch pat []
  | c :: t => headMatch pat (c :: t) || containsSub pat t

/-- `filteredReviews` from `src/unnamed/part_001` lines 56-61.  The
JavaScript guard `!searchTerm` is true exactly for the empty string. -/
def filteredReviews (searchTerm : List Char) (data : List ReviewData) : List ReviewData :=
  if searchTerm = [] then data
  else data.filter fun review => containsSub (lowerStr searchTerm) (lowerStr review.source)

/-- A business record (`Business` in `src/unnamed/part_000`). -/
structure Business where
  name : List Char
  category : List Char
  address : List Char
  rating : ℚ
  reviews : ℚ
  website : List Char
  phone : List Char
  priceLevel : List Char
  hours : List Char
  serviceOptions : List Char
  latitude : ℚ
  longitude : ℚ
deriving DecidableEq

/-- `filteredData` from `src/unnamed/part_000` lines 73-79. -/
def filteredData (searchTerm : List Char) (data : List Business) : List Business :=
  if searchTerm = [] then data
  else data.filter fun item =>
    containsSub (lowerStr searchTerm) (lowerStr item.name) ||
    containsSub (lowerStr searchTerm) (lowerStr item.category)

/-- `averageRating` from `src/unnamed/part_000` lines 81-85.  On the
rational embedding `item.rating || 0` is the identity (a present numeric
rating is kept, and `0 || 0` is `0`), so the summand is `item.rating`;
`toFixed(2)` yields the displayed two-decimal value, embedded as its
numeric value. -/
def averageRating (data : List Business) : ℚ :=
  if data.length = 0 then 0
  else round2 ((data.foldl (fun sum item => sum + item.rating) 0) / (data.length : ℚ))

/-- The five mutable counters of `ratingDistribution` in
`src/unnamed/part_000` lines 88-94. -/
@[ext]
structure BizDist where
  b5 : ℕ
  b4 : ℕ
  b3 : ℕ
  b2 : ℕ
  b1 : ℕ
deriving DecidableEq

/-- One iteration of `data.forEach(item => ...)` of `ratingDistribution`
(`part_000` lines 95-101): the if/else-if rating cascade. -/
def tally (d : BizDist) (item : Business) : BizDist :=
  if 5 ≤ item.rating then { d with b5 := d.b5 + 1 }
  else if 4 ≤ item.rating then { d with b4 := d.b4 + 1 }
  else if 3 ≤ item.rating then { d with b3 := d.b3 + 1 }
  else if 2 ≤ item.rating then { d with b2 := d.b2 + 1 }
  else if 1 ≤ item.rating then { d with b1 := d.b1 + 1 }
  else d

/-- `ratingDistribution` from `src/unnamed/part_000` lines 87-103:
pairs (bucket label, number of businesses). -/
def ratingDistribution (data : List Business) : List (List Char × ℕ) :=
  let d := data.foldl tally ⟨0, 0, 0, 0, 0⟩
  [("5 Stars".toList, d.b5),
   ("4-4.9 Stars".toList, d.b4),
   ("3-3.9 Stars".toList, d.b3),
   ("2-2.9 Stars".toList, d.b2),
   ("1-1.9 Stars".toList, d.b1)]

/-! Derived expressions used to state properties of the combiner. -/

/-- The entry list of a record's `distribution` object (empty when the
field is absent, matching the `if (source.distribution)` guard). -/
def recEntries (r : ReviewData) : List (List Char × ℚ) := r.distribution.getD []

/-- The amount one `(key, count)` entry contributes to the accumulator of
star digit `c` under the code's `charAt(0)` dispatch. -/
def entryContrib (c : Char) (e : List Char × ℚ) : ℚ :=
  if charAt0 e.1 = [c] then e.2 else 0

/-- Total contribution of one record to the accumulator of star digit `c`. -/
def recSum (c : Char) (r : ReviewData) : ℚ :=
  ((recEntries r).map (entryContrib c)).sum

/-- Total contribution of a batch to the accumulator of star digit `c`. -/
def bucketSum (c : Char) (data : List ReviewData) : ℚ :=
  (data.map (recSum c)).sum

/-- Grand total of all distribution values of a batch. -/
def totalDistSum (data : List ReviewData) : ℚ :=
  (data.map (fun r => ((recEntries r).map (fun e => e.2)).sum)).sum

/-- Spec-side combiner step, written from the spec's words (§4.2): a
`(star, count)` pair is added only when the star key itself is one of the
five recognized bucket keys `"1"`..`"5"`; every other key is ignored.
Stated for comparison with the code's `addEntry`. -/
def specAddEntry (c : Combined) (e : List Char × ℚ) : Combined :=
  if e.1 = ['5'] then { c with s5 := c.s5 + e.2 }
  else if e.1 = ['4'] then { c with s4 := c.s4 + e.2 }
  else if e.1 = ['3'] then { c with s3 := c.s3 + e.2 }
  else if e.1 = ['2'] then { c with s2 := c.s2 + e.2 }
  else if e.1 = ['1'] then { c with s1 := c.s1 + e.2 }
  else c

/-- Spec-side combined distribution, written from the spec's words (§4.2),
for comparison with the code's `ratingDistributionData`. -/
def specCombinedDistribution (data : List ReviewData) : List (ℚ × ℚ) :=
  let combined := data.foldl (fun c r => (recEntries r).foldl specAddEntry c) ⟨0, 0, 0, 0, 0⟩
  [(5, combined.s5), (4, combined.s4), (3, combined.s3), (2, combined.s2), (1, combined.s1)]

/-- Spec-side weighted mean for the business-listing variant, written from
the spec's words (glossary / §3): mean of per-record ratings weighted by
each record's review count.  Stated for comparison with the code's
`averageRating`. -/
def specWeightedMeanBiz (data : List Business) : ℚ :=
  (data.map (fun i => i.rating * i.reviews)).sum / (data.map (fun i => i.reviews)).sum

/-! An exception-explicit rendering of the three operations, for the
totality claim: every JavaScript step of the loop bodies is a monadic
step in `Except String`, and the one property access that could throw at
runtime — `Object.entries(source.distribution)` on an absent
`distribution` — is rendered by `jsEntries`.  The remaining accesses
(`item.count || 0`, `review.source.toLowerCase()`, ...) read present or
defaulted fields and cannot throw. -/

/-- `Object.entries(o)`: throws a `TypeError` when `o` is `undefined`. -/
def jsEntries (o : Option (List (List Char × ℚ))) : Except (List Char) (List (List Char × ℚ)) :=
  match o with
  | none => Except.error "TypeError: cannot convert undefined to object".toList
  | some d => Except.ok d

/-- Effectful fold, used to thread possible exceptions through the
`reduce`/`forEach` loops. -/
def foldlME {α β : Type} (f : β → α → Except (List Char) β) : β → List α → Except (List Char) β
  | b, [] => Except.ok b
  | b, x :: xs =>
    match f b x with
    | Except.error e => Except.error e
    | Except.ok b' => foldlME f b' xs

/-- Effectful filter, used to thread possible exceptions through
`Array.prototype.filter`. -/
def filterME {α : Type} (p : α → Except (List Char) Bool) : List α → Except (List Char) (List α)
  | [] => Except.ok []
  | x :: xs =>
    match p x with
    | Except.error e => Except.error e
    | Except.ok b =>
      match filterME p xs with
      | Except.error e => Except.error e
      | Except.ok rest => Except.ok (if b then x :: rest else rest)

/-- Exception-explicit `summary`: each `reduce` step is a monadic step
(JavaScript arithmetic on defaulted numeric fields cannot throw). -/
def summaryE (data : List ReviewData) : Except (List Char) Summary :=
  if data.length = 0 then Except.ok { avgRating := 0, totalReviews := 0, sourceCount := 0 }
  else
    match foldlME (fun sum item => Except.ok (sum + orZero item.count)) (0 : ℚ) data with
    | Except.error e => Except.error e
    | Except.ok totalReviews =>
      match foldlME (fun sum item => Except.ok (sum + orZero item.rating * orZero item.count))
          (0 : ℚ) data with
      | Except.error e => Except.error e
      | Except.ok weightedTotalRating =>
        let avgRating := if 0 < totalReviews then weightedTotalRating / totalReviews else 0
        Except.ok { avgRating := round2 avgRating
                    totalReviews := totalReviews
                    sourceCount := data.length }

/-- Exception-explicit body of one `forEach` iteration of
`ratingDistributionData`: the `if (source.distribution)` guard, then
`Object.entries` (the access that could throw), then the inner loop. -/
def combineRecordE (c : Combined) (r : ReviewData) : Except (List Char) Combined :=
  if r.distribution.isSome then
    match jsEntries r.distribution with
    | Except.error e => Except.error e
    | Except.ok d => Except.ok (d.foldl addEntry c)
  else Except.ok c

/-- Exception-explicit `ratingDistributionData`. -/
def ratingDistributionDataE (data : List ReviewData) : Except (List Char) (List (ℚ × ℚ)) :=
  match foldlME combineRecordE ⟨0, 0, 0, 0, 0⟩ data with
  | Except.error e => Except.error e
  | Except.ok combined =>
    Except.ok [(5, combined.s5), (4, combined.s4), (3, combined.s3),
               (2, combined.s2), (1, combined.s1)]

/-- Exception-explicit `filteredReviews`: the predicate reads the required
`source` field and lowercases it, which cannot throw. -/
def filteredReviewsE (searchTerm : List Char) (data : List ReviewData) :
    Except (List Char) (List ReviewData) :=
  if searchTerm = [] then Except.ok data
  else filterME
    (fun review => Except.ok (containsSub (lowerStr searchTerm) (lowerStr review.source))) data

/-! ### Shared lemmas -/

theorem foldl_add_map {α : Type} (f : α → ℚ) (a : ℚ) (l : List α) :
    l.foldl (fun s i => s + f i) a = a + (l.map f).sum := by
  induction l generalizing a with
  | nil => simp
  | cons x xs ih => rw [List.foldl_cons, ih, List.map_cons, List.sum_cons]; ring

theorem round2_zero : round2 0 = 0 := by
  unfold round2
  rw [round_eq]
  norm_num

theorem sourceTotalReviews_eq (data : List ReviewData) :
    sourceTotalReviews data = (data.map fun i => orZero i.count).sum := by
  unfold sourceTotalReviews
  rw [foldl_add_map, zero_add]

theorem sourceWeightedTotal_eq (data : List ReviewData) :
    sourceWeightedTotal data = (data.map fun i => orZero i.rating * orZero i.count).sum := by
  unfold sourceWeightedTotal
  rw [foldl_add_map, zero_add]

theorem summary_avg_formula (data : List ReviewData) :
    (summary data).avgRating =
      round2 (if 0 < (data.map fun i => orZero i.count).sum
        then (data.map fun i => orZero i.rating * orZero i.count).sum /
             (data.map fun i => orZero i.count).sum
        else 0) := by
  have havg : unroundedAvg data =
      (if 0 < (data.map fun i => orZero i.count).sum
        then (data.map fun i => orZero i.rating * orZero i.count).sum /
             (data.map fun i => orZero i.count).sum
        else 0) := by
    unfold unroundedAvg
    rw [sourceTotalReviews_eq, sourceWeightedTotal_eq]
  rcases data with _ | ⟨x, xs⟩
  · simp [summary, round2_zero]
  · simp only [summary, List.length_cons, Nat.succ_ne_zero, if_neg]
    rw [havg]
    simp

/-! ### C1 and C4: the weighted average of the hotel summary -/

/-- C1: for every batch, the summary's weighted average rating is the sum
of `rating * count` over all records divided by the sum of `count`
(absent fields treated as 0, zero denominator giving 0), computed exactly
and rounded to two decimal places only in the final step. -/
theorem summary_weighted_average (data : List ReviewData) :
    (summary data).avgRating =
      round2 (if 0 < (data.map fun i => orZero i.count).sum
        then (data.map fun i => orZero i.rating * orZero i.count).sum /
             (data.map fun i => orZero i.count).sum
        else 0) :=
  summary_avg_formula data

/-- C4: when the counts sum to 0 (in particular for the empty batch), the
summary's weighted average rating is exactly 0. -/
theorem summary_zero_total (data : List ReviewData)
    (h : (data.map fun i => orZero i.count).sum = 0) :
    (summary data).avgRating = 0 := by
  rw [summary_avg_formula, h]
  simp [round2_zero]

/-- Witness for C4: a batch with one zero-count record. -/
theorem summary_zero_total_witness :
    ((([⟨"A".toList, some 4, some 0, none, []⟩] : List ReviewData).map
        fun i => orZero i.count).sum = 0) ∧
      (summary [⟨"A".toList, some 4, some 0, none, []⟩]).avgRating = 0 :=
  ⟨by simp [orZero], summary_zero_total _ (by simp [orZero])⟩

theorem foldl_addEntry (es : List (List Char × ℚ)) (acc : Combined) :
    es.foldl addEntry acc =
      ⟨acc.s5 + (es.map (entryContrib '5')).sum,
       acc.s4 + (es.map (entryContrib '4')).sum,
       acc.s3 + (es.map (entryContrib '3')).sum,
       acc.s2 + (es.map (entryContrib '2')).sum,
       acc.s1 + (es.map (entryContrib '1')).sum⟩ := by
  induction es generalizing acc with
  | nil => simp
  | cons e es ih =>
    rw [List.foldl_cons, ih]
    simp only [List.map_cons, List.sum_cons, addEntry, entryContrib]
    split_ifs with h5 h4 h3 h2 h1 <;>
      simp_all [Combined.mk.injEq] <;> ring

theorem combineRecord_eq (acc : Combined) (r : ReviewData) :
    combineRecord acc r =
      ⟨acc.s5 + recSum '5' r, acc.s4 + recSum '4' r, acc.s3 + recSum '3' r,
       acc.s2 + recSum '2' r, acc.s1 + recSum '1' r⟩ := by
  unfold combineRecord recSum recEntries
  cases h : r.distribution with
  | none => simp
  | some d => simp [foldl_addEntry]

theorem foldl_combineRecord (data : List ReviewData) (acc : Combined) :
    data.foldl combineRecord acc =
      ⟨acc.s5 + bucketSum '5' data, acc.s4 + bucketSum '4' data,
       acc.s3 + bucketSum '3' data, acc.s2 + bucketSum '2' data,
       acc.s1 + bucketSum '1' data⟩ := by
  induction data generalizing acc with
  | nil => simp [bucketSum]
  | cons r rest ih =>
    rw [List.foldl_cons, combineRecord_eq, ih]
    simp only [bucketSum, List.map_cons, List.sum_cons, Combined.mk.injEq]
    refine ⟨by ring, by ring, by ring, by ring, by ring⟩

theorem ratingDistributionData_eq (data : List ReviewData) :
    ratingDistributionData data =
      [(5, bucketSum '5' data), (4, bucketSum '4' data), (3, bucketSum '3' data),
       (2, bucketSum '2' data), (1, bucketSum '1' data)] := by
  unfold ratingDistributionData
  rw [foldl_combineRecord]
  simp

theorem entry_sums (es : List (List Char × ℚ))
    (h : ∀ e ∈ es, e.1 ∈ [['1'], ['2'], ['3'], ['4'], ['5']]) :
    (es.map (entryContrib '5')).sum + (es.map (entryContrib '4')).sum +
      (es.map (entryContrib '3')).sum + (es.map (entryContrib '2')).sum +
      (es.map (entryContrib '1')).sum = (es.map (fun e => e.2)).sum := by
  induction es with
  | nil => simp
  | cons e es ih =>
    have he := h e (List.mem_cons_self e es)
    have hrest : ∀ x ∈ es, x.1 ∈ [['1'], ['2'], ['3'], ['4'], ['5']] :=
      fun x hx => h x (List.mem_cons_of_mem e hx)
    simp only [List.map_cons, List.sum_cons]
    rw [← ih hrest]
    simp only [List.mem_cons, List.not_mem_nil, or_false] at he
    rcases he with h1 | h1 | h1 | h1 | h1 <;> simp [entryContrib, charAt0, h1] <;> ring

theorem bucketSum_cons (c : Char) (r : ReviewData) (rest : List ReviewData) :
    bucketSum c (r :: rest) = recSum c r + bucketSum c rest := by
  simp [bucketSum]

theorem totalDistSum_cons (r : ReviewData) (rest : List ReviewData) :
    totalDistSum (r :: rest) =
      ((recEntries r).map (fun e => e.2)).sum + totalDistSum rest := by
  simp [totalDistSum]

theorem bucketSums_total (data : List ReviewData)
    (h : ∀ r ∈ data, ∀ e ∈ recEntries r, e.1 ∈ [['1'], ['2'], ['3'], ['4'], ['5']]) :
    bucketSum '5' data + bucketSum '4' data + bucketSum '3' data +
      bucketSum '2' data + bucketSum '1' data = totalDistSum data := by
  induction data with
  | nil => simp [bucketSum, totalDistSum]
  | cons r rest ih =>
    have hr := h r (List.mem_cons_self r rest)
    have hrest : ∀ x ∈ rest, ∀ e ∈ recEntries x, e.1 ∈ [['1'], ['2'], ['3'], ['4'], ['5']] :=
      fun x hx => h x (List.mem_cons_of_mem r hx)
    have hs : recSum '5' r + recSum '4' r + recSum '3' r + recSum '2' r + recSum '1' r =
        ((recEntries r).map (fun e => e.2)).sum := by
      unfold recSum
      exact entry_sums (recEntries r) hr
    rw [bucketSum_cons, bucketSum_cons, bucketSum_cons, bucketSum_cons, bucketSum_cons,
      totalDistSum_cons]
    have hrec := ih hrest
    linarith

theorem bucketSum_perm (c : Char) {data data' : List ReviewData} (hperm : data.Perm data') :
    bucketSum c data' = bucketSum c data :=
  (List.Perm.sum_eq (hperm.map (recSum c))).symm

/-- C2 (amended): the combiner starts the five accumulators at 0 and, for
every entry of every record's distribution, it adds the entry's count to
the bucket whose digit equals the FIRST CHARACTER of the entry's key
(ignoring entries whose first character is none of '1'..'5'); output is
the fixed sequence star 5 down to star 1. -/
theorem rating_distribution_first_char (data : List ReviewData) :
    ratingDistributionData data =
      [(5, bucketSum '5' data), (4, bucketSum '4' data), (3, bucketSum '3' data),
       (2, bucketSum '2' data), (1, bucketSum '1' data)] :=
  ratingDistributionData_eq data

/-- Counterexample to C2 as stated: the key `"42"` is not one of the five
recognized bucket keys, yet the code credits its count to star 4 (the
first character), so the code differs from the spec-side combiner that
ignores unrecognized keys. -/
theorem rating_distribution_key_counterexample :
    ratingDistributionData [⟨"A".toList, none, none, some [("42".toList, 7)], []⟩] ≠
      specCombinedDistribution [⟨"A".toList, none, none, some [("42".toList, 7)], []⟩] := by
  have hcode : ratingDistributionData [⟨"A".toList, none, none, some [("42".toList, 7)], []⟩] =
      [(5, 0), (4, 7), (3, 0), (2, 0), (1, 0)] := by
    simp [ratingDistributionData, combineRecord, addEntry, charAt0]
  have hspec : specCombinedDistribution [⟨"A".toList, none, none, some [("42".toList, 7)], []⟩] =
      [(5, 0), (4, 0), (3, 0), (2, 0), (1, 0)] := by
    simp [specCombinedDistribution, recEntries, specAddEntry]
  rw [hcode, hspec]
  intro h
  have h4 := congrArg (fun l => l.get? 1) h
  simp at h4

/-- C7: on schema-conforming distributions (keys `"1"`..`"5"`), the five
combined bucket counts sum to the grand total of all distribution values,
and permuting the batch leaves the combined distribution unchanged. -/
theorem combined_distribution_conservation (data data' : List ReviewData)
    (hschema : ∀ r ∈ data, ∀ e ∈ recEntries r, e.1 ∈ [['1'], ['2'], ['3'], ['4'], ['5']])
    (hperm : data.Perm data') :
    ((ratingDistributionData data).map (fun p => p.2)).sum = totalDistSum data ∧
      ratingDistributionData data' = ratingDistributionData data := by
  constructor
  · rw [ratingDistributionData_eq]
    have := bucketSums_total data hschema
    simp only [List.map_cons, List.map_nil, List.sum_cons, List.sum_nil]
    linarith
  · rw [ratingDistributionData_eq, ratingDistributionData_eq]
    simp [bucketSum_perm _ hperm]

/-- Witness for C7: two schema-conforming records, swapped. -/
theorem combined_distribution_conservation_witness :
    (∀ r ∈ ([⟨"A".toList, none, none, some [("5".toList, 3), ("1".toList, 2)], []⟩,
             ⟨"B".toList, none, none, some [("4".toList, 1)], []⟩] : List ReviewData),
      ∀ e ∈ recEntries r, e.1 ∈ [['1'], ['2'], ['3'], ['4'], ['5']]) ∧
    ([⟨"A".toList, none, none, some [("5".toList, 3), ("1".toList, 2)], []⟩,
      ⟨"B".toList, none, none, some [("4".toList, 1)], []⟩] : List ReviewData).Perm
      [⟨"B".toList, none, none, some [("4".toList, 1)], []⟩,
       ⟨"A".toList, none, none, some [("5".toList, 3), ("1".toList, 2)], []⟩] ∧
    (((ratingDistributionData
        [⟨"A".toList, none, none, some [("5".toList, 3), ("1".toList, 2)], []⟩,
         ⟨"B".toList, none, none, some [("4".toList, 1)], []⟩]).map (fun p => p.2)).sum =
      totalDistSum
        [⟨"A".toList, none, none, some [("5".toList, 3), ("1".toList, 2)], []⟩,
         ⟨"B".toList, none, none, some [("4".toList, 1)], []⟩] ∧
      ratingDistributionData
        [⟨"B".toList, none, none, some [("4".toList, 1)], []⟩,
         ⟨"A".toList, none, none, some [("5".toList, 3), ("1".toList, 2)], []⟩] =
      ratingDistributionData
        [⟨"A".toList, none, none, some [("5".toList, 3), ("1".toList, 2)], []⟩,
         ⟨"B".toList, none, none, some [("4".toList, 1)], []⟩]) :=
  ⟨by decide,
   List.Perm.swap _ _ [],
   combined_distribution_conservation _ _ (by decide) (List.Perm.swap _ _ [])⟩

theorem weightedSum_lower (data : List ReviewData) (m : ℚ)
    (hc : ∀ r ∈ data, 0 ≤ orZero r.count)
    (hm : ∀ r ∈ data, 0 < orZero r.count → m ≤ orZero r.rating) :
    m * (data.map fun i => orZero i.count).sum ≤
      (data.map fun i => orZero i.rating * orZero i.count).sum := by
  induction data with
  | nil => simp
  | cons r rest ih =>
    have hcr := hc r (List.mem_cons_self r rest)
    have hterm : m * orZero r.count ≤ orZero r.rating * orZero r.count := by
      rcases eq_or_lt_of_le hcr with h0 | hpos
      · rw [← h0]
        simp
      · exact mul_le_mul_of_nonneg_right (hm r (List.mem_cons_self r rest) hpos) hcr
    have hrest := ih (fun x hx => hc x (List.mem_cons_of_mem r hx))
      (fun x hx => hm x (List.mem_cons_of_mem r hx))
    simp only [List.map_cons, List.sum_cons]
    calc m * (orZero r.count + (rest.map fun i => orZero i.count).sum)
        = m * orZero r.count + m * (rest.map fun i => orZero i.count).sum := by ring
      _ ≤ orZero r.rating * orZero r.count +
            (rest.map fun i => orZero i.rating * orZero i.count).sum := add_le_add hterm hrest

theorem weightedSum_upper (data : List ReviewData) (M : ℚ)
    (hc : ∀ r ∈ data, 0 ≤ orZero r.count)
    (hM : ∀ r ∈ data, 0 < orZero r.count → orZero r.rating ≤ M) :
    (data.map fun i => orZero i.rating * orZero i.count).sum ≤
      M * (data.map fun i => orZero i.count).sum := by
  induction data with
  | nil => simp
  | cons r rest ih =>
    have hcr := hc r (List.mem_cons_self r rest)
    have hterm : orZero r.rating * orZero r.count ≤ M * orZero r.count := by
      rcases eq_or_lt_of_le hcr with h0 | hpos
      · rw [← h0]
        simp
      · exact mul_le_mul_of_nonneg_right (hM r (List.mem_cons_self r rest) hpos) hcr
    have hrest := ih (fun x hx => hc x (List.mem_cons_of_mem r hx))
      (fun x hx => hM x (List.mem_cons_of_mem r hx))
    simp only [List.map_cons, List.sum_cons]
    calc orZero r.rating * orZero r.count +
          (rest.map fun i => orZero i.rating * orZero i.count).sum
        ≤ M * orZero r.count + M * (rest.map fun i => orZero i.count).sum :=
          add_le_add hterm hrest
      _ = M * (orZero r.count + (rest.map fun i => orZero i.count).sum) := by ring

/-- C6 (amended): for a batch with non-negative counts and at least one
positive count, the weighted average BEFORE the final two-decimal rounding
lies within any interval `[m, M]` containing the (defaulted) ratings of
the positive-count records — in particular within their min and max. -/
theorem weighted_avg_bounds (data : List ReviewData) (m M : ℚ)
    (hc : ∀ r ∈ data, 0 ≤ orZero r.count)
    (hpos : 0 < sourceTotalReviews data)
    (hm : ∀ r ∈ data, 0 < orZero r.count → m ≤ orZero r.rating)
    (hM : ∀ r ∈ data, 0 < orZero r.count → orZero r.rating ≤ M) :
    m ≤ unroundedAvg data ∧ unroundedAvg data ≤ M := by
  have hts := sourceTotalReviews_eq data
  have hws := sourceWeightedTotal_eq data
  have hpos' : 0 < (data.map fun i => orZero i.count).sum := by
    rw [← hts]
    exact hpos
  unfold unroundedAvg
  rw [if_pos hpos, hts, hws]
  constructor
  · rw [le_div_iff₀ hpos']
    exact weightedSum_lower data m hc hm
  · rw [div_le_iff₀ hpos']
    exact weightedSum_upper data M hc hM

/-- Counterexample to C6 as stated: a single source rated 4.444 with one
review.  The interval of positive-count ratings is the point 4.444, but
the summary's displayed weighted average is the rounded 4.44, which lies
outside it. -/
theorem weighted_avg_rounding_counterexample :
    ¬ ((1111 : ℚ) / 250 ≤
        (summary [⟨"Agoda".toList, some (1111 / 250), some 1, none, []⟩]).avgRating ∧
       (summary [⟨"Agoda".toList, some (1111 / 250), some 1, none, []⟩]).avgRating ≤
        1111 / 250) := by
  have hv : (summary [⟨"Agoda".toList, some (1111 / 250), some 1, none, []⟩]).avgRating =
      111 / 25 := by
    simp [summary, unroundedAvg, sourceTotalReviews, sourceWeightedTotal, orZero,
      round2, round_eq]
    norm_num
  rw [hv]
  norm_num

/-- Witness for C6 (amended): ratings 4 and 5 with counts 2 and 1. -/
theorem weighted_avg_bounds_witness :
    (∀ r ∈ ([⟨"A".toList, some 4, some 2, none, []⟩,
             ⟨"B".toList, some 5, some 1, none, []⟩] : List ReviewData),
        0 ≤ orZero r.count) ∧
    0 < sourceTotalReviews [⟨"A".toList, some 4, some 2, none, []⟩,
                            ⟨"B".toList, some 5, some 1, none, []⟩] ∧
    (∀ r ∈ ([⟨"A".toList, some 4, some 2, none, []⟩,
             ⟨"B".toList, some 5, some 1, none, []⟩] : List ReviewData),
        0 < orZero r.count → (4 : ℚ) ≤ orZero r.rating) ∧
    (∀ r ∈ ([⟨"A".toList, some 4, some 2, none, []⟩,
             ⟨"B".toList, some 5, some 1, none, []⟩] : List ReviewData),
        0 < orZero r.count → orZero r.rating ≤ (5 : ℚ)) ∧
    ((4 : ℚ) ≤ unroundedAvg [⟨"A".toList, some 4, some 2, none, []⟩,
                             ⟨"B".toList, some 5, some 1, none, []⟩] ∧
      unroundedAvg [⟨"A".toList, some 4, some 2, none, []⟩,
                    ⟨"B".toList, some 5, some 1, none, []⟩] ≤ 5) :=
  ⟨by intro r hr; fin_cases hr <;> norm_num [orZero],
   by norm_num [sourceTotalReviews, orZero],
   by intro r hr; fin_cases hr <;> intro h <;> norm_num [orZero],
   by intro r hr; fin_cases hr <;> intro h <;> norm_num [orZero],
   weighted_avg_bounds _ 4 5
     (by intro r hr; fin_cases hr <;> norm_num [orZero])
     (by norm_num [sourceTotalReviews, orZero])
     (by intro r hr; fin_cases hr <;> intro h <;> norm_num [orZero])
     (by intro r hr; fin_cases hr <;> intro h <;> norm_num [orZero])⟩

theorem containsSub_nil_pat (s : List Char) : containsSub [] s = true := by
  cases s <;> rfl

/-- C3 (amended): for EVERY query (including whitespace-only ones) both
filter projectors return exactly the ordered subsequence of records whose
searchable text — the source label, or the business name or category —
contains the query as a case-insensitive substring; only the literally
empty query short-circuits, and it equals the substring filter anyway. -/
theorem filter_projector_characterization (q : List Char) (data : List ReviewData)
    (biz : List Business) :
    filteredReviews q data =
        data.filter (fun r => containsSub (lowerStr q) (lowerStr r.source)) ∧
      filteredData q biz =
        biz.filter (fun i => containsSub (lowerStr q) (lowerStr i.name) ||
          containsSub (lowerStr q) (lowerStr i.category)) := by
  by_cases hq : q = []
  · subst hq
    constructor
    · simp [filteredReviews, lowerStr, containsSub_nil_pat]
    · simp [filteredData, lowerStr, containsSub_nil_pat]
  · constructor
    · simp [filteredReviews, hq]
    · simp [filteredData, hq]

/-- Counterexample to C3 as stated: the whitespace-only query `" "` is
truthy in JavaScript, so it is NOT short-circuited to the full set: it
filters, and a source without a space in its label is dropped. -/
theorem filter_whitespace_counterexample :
    filteredReviews [' '] [⟨"Agoda".toList, none, none, none, []⟩] = [] ∧
      ([⟨"Agoda".toList, none, none, none, []⟩] : List ReviewData) ≠ [] := by
  constructor
  · decide
  · decide

/-- C9: filtering with the empty query is the identity, and filtering an
already-filtered set again with the same query changes nothing, for both
filter projectors. -/
theorem filter_identity_idempotence (q : List Char) (data : List ReviewData)
    (biz : List Business) :
    filteredReviews [] data = data ∧ filteredData [] biz = biz ∧
      filteredReviews q (filteredReviews q data) = filteredReviews q data ∧
      filteredData q (filteredData q biz) = filteredData q biz := by
  refine ⟨rfl, rfl, ?_, ?_⟩
  · by_cases hq : q = []
    · simp [filteredReviews, hq]
    · simp [filteredReviews, hq, List.filter_filter]
  · by_cases hq : q = []
    · simp [filteredData, hq]
    · simp [filteredData, hq, List.filter_filter]

/-- C5 (amended): the business-listing overall rating is the SIMPLE
arithmetic mean of the per-record ratings, rounded to two decimals — not
the review-count-weighted mean. -/
theorem business_average_simple_mean (data : List Business) :
    averageRating data =
      if data.length = 0 then 0
      else round2 ((data.map (fun i => i.rating)).sum / (data.length : ℚ)) := by
  unfold averageRating
  by_cases h : data.length = 0
  · simp [h]
  · rw [if_neg h, if_neg h, foldl_add_map, zero_add]

/-- Counterexample to C5 as stated: two businesses, one rated 1 backed by
100 reviews and one rated 5 backed by none.  The weighted mean is 1, but
the code displays the simple mean 3. -/
theorem business_average_not_weighted :
    averageRating [⟨"P".toList, "c".toList, "a".toList, 1, 100, "w".toList, "p".toList,
        "$".toList, "h".toList, "s".toList, 0, 0⟩,
      ⟨"Q".toList, "c".toList, "a".toList, 5, 0, "w".toList, "p".toList,
        "$".toList, "h".toList, "s".toList, 0, 0⟩] = 3 ∧
    specWeightedMeanBiz [⟨"P".toList, "c".toList, "a".toList, 1, 100, "w".toList, "p".toList,
        "$".toList, "h".toList, "s".toList, 0, 0⟩,
      ⟨"Q".toList, "c".toList, "a".toList, 5, 0, "w".toList, "p".toList,
        "$".toList, "h".toList, "s".toList, 0, 0⟩] = 1 ∧
    round2 (1 : ℚ) ≠ (3 : ℚ) := by
  refine ⟨?_, ?_, ?_⟩
  · simp [averageRating, round2, round_eq]
    norm_num
  · simp [specWeightedMeanBiz]
  · unfold round2
    rw [round_eq]
    norm_num

theorem tally_eq (d : BizDist) (i : Business) :
    tally d i =
      ⟨d.b5 + (if 5 ≤ i.rating then 1 else 0),
       d.b4 + (if 4 ≤ i.rating ∧ i.rating < 5 then 1 else 0),
       d.b3 + (if 3 ≤ i.rating ∧ i.rating < 4 then 1 else 0),
       d.b2 + (if 2 ≤ i.rating ∧ i.rating < 3 then 1 else 0),
       d.b1 + (if 1 ≤ i.rating ∧ i.rating < 2 then 1 else 0)⟩ := by
  unfold tally
  by_cases h5 : 5 ≤ i.rating
  · have n4 : ¬(4 ≤ i.rating ∧ i.rating < 5) := fun h => by linarith [h.2]
    have n3 : ¬(3 ≤ i.rating ∧ i.rating < 4) := fun h => by linarith [h.2]
    have n2 : ¬(2 ≤ i.rating ∧ i.rating < 3) := fun h => by linarith [h.2]
    have n1 : ¬(1 ≤ i.rating ∧ i.rating < 2) := fun h => by linarith [h.2]
    simp [h5, n4, n3, n2, n1]
  · by_cases h4 : 4 ≤ i.rating
    · have p4 : 4 ≤ i.rating ∧ i.rating < 5 := ⟨h4, not_le.mp h5⟩
      have n3 : ¬(3 ≤ i.rating ∧ i.rating < 4) := fun h => by linarith [h.2]
      have n2 : ¬(2 ≤ i.rating ∧ i.rating < 3) := fun h => by linarith [h.2]
      have n1 : ¬(1 ≤ i.rating ∧ i.rating < 2) := fun h => by linarith [h.2]
      simp [h5, h4, p4, n3, n2, n1]
    · by_cases h3 : 3 ≤ i.rating
      · have p3 : 3 ≤ i.rating ∧ i.rating < 4 := ⟨h3, not_le.mp h4⟩
        have n2 : ¬(2 ≤ i.rating ∧ i.rating < 3) := fun h => by linarith [h.2]
        have n1 : ¬(1 ≤ i.rating ∧ i.rating < 2) := fun h => by linarith [h.2]
        simp [h5, h4, h3, p3, n2, n1]
      · by_cases h2 : 2 ≤ i.rating
        · have p2 : 2 ≤ i.rating ∧ i.rating < 3 := ⟨h2, not_le.mp h3⟩
          have n1 : ¬(1 ≤ i.rating ∧ i.rating < 2) := fun h => by linarith [h.2]
          simp [h5, h4, h3, h2, p2, n1]
        · by_cases h1 : 1 ≤ i.rating
          · have p1 : 1 ≤ i.rating ∧ i.rating < 2 := ⟨h1, not_le.mp h2⟩
            simp [h5, h4, h3, h2, h1, p1]
          · have n5 : ¬(4 ≤ i.rating ∧ i.rating < 5) := fun h => absurd h.1 h4
            have n3 : ¬(3 ≤ i.rating ∧ i.rating < 4) := fun h => absurd h.1 h3
            have n2 : ¬(2 ≤ i.rating ∧ i.rating < 3) := fun h => absurd h.1 h2
            have n1 : ¬(1 ≤ i.rating ∧ i.rating < 2) := fun h => absurd h.1 h1
            simp [h5, h4, h3, h2, h1, n5, n3, n2, n1]

theorem foldl_tally (data : List Business) (acc : BizDist) :
    data.foldl tally acc =
      ⟨acc.b5 + data.countP (fun i => decide (5 ≤ i.rating)),
       acc.b4 + data.countP (fun i => decide (4 ≤ i.rating ∧ i.rating < 5)),
       acc.b3 + data.countP (fun i => decide (3 ≤ i.rating ∧ i.rating < 4)),
       acc.b2 + data.countP (fun i => decide (2 ≤ i.rating ∧ i.rating < 3)),
       acc.b1 + data.countP (fun i => decide (1 ≤ i.rating ∧ i.rating < 2))⟩ := by
  induction data generalizing acc with
  | nil => simp
  | cons i rest ih =>
    rw [List.foldl_cons, ih, tally_eq]
    simp only [List.countP_cons, decide_eq_true_eq, BizDist.mk.injEq]
    refine ⟨?_, ?_, ?_, ?_, ?_⟩ <;> ring

theorem indicator_sum (i : Business) :
    (if 5 ≤ i.rating then (1 : ℕ) else 0) + (if 4 ≤ i.rating ∧ i.rating < 5 then 1 else 0) +
      (if 3 ≤ i.rating ∧ i.rating < 4 then 1 else 0) +
      (if 2 ≤ i.rating ∧ i.rating < 3 then 1 else 0) +
      (if 1 ≤ i.rating ∧ i.rating < 2 then 1 else 0) =
      if 1 ≤ i.rating then 1 else 0 := by
  by_cases h5 : 5 ≤ i.rating
  · have g1 : (1 : ℚ) ≤ i.rating := by linarith
    have n4 : ¬(4 ≤ i.rating ∧ i.rating < 5) := fun h => by linarith [h.2]
    have n3 : ¬(3 ≤ i.rating ∧ i.rating < 4) := fun h => by linarith [h.2]
    have n2 : ¬(2 ≤ i.rating ∧ i.rating < 3) := fun h => by linarith [h.2]
    have n1 : ¬(1 ≤ i.rating ∧ i.rating < 2) := fun h => by linarith [h.2]
    simp [h5, g1, n4, n3, n2, n1]
    linarith
  · by_cases h4 : 4 ≤ i.rating
    · have g1 : (1 : ℚ) ≤ i.rating := by linarith
      have p4 : 4 ≤ i.rating ∧ i.rating < 5 := ⟨h4, not_le.mp h5⟩
      have n3 : ¬(3 ≤ i.rating ∧ i.rating < 4) := fun h => by linarith [h.2]
      have n2 : ¬(2 ≤ i.rating ∧ i.rating < 3) := fun h => by linarith [h.2]
      have n1 : ¬(1 ≤ i.rating ∧ i.rating < 2) := fun h => by linarith [h.2]
      simp [h5, g1, p4, n3, n2, n1]
      linarith
    · by_cases h3 : 3 ≤ i.rating
      · have g1 : (1 : ℚ) ≤ i.rating := by linarith
        have p3 : 3 ≤ i.rating ∧ i.rating < 4 := ⟨h3, not_le.mp h4⟩
        have n2 : ¬(2 ≤ i.rating ∧ i.rating < 3) := fun h => by linarith [h.2]
        have n1 : ¬(1 ≤ i.rating ∧ i.rating < 2) := fun h => by linarith [h.2]
        simp [h5, h4, g1, p3, n2, n1]
        linarith
      · by_cases h2 : 2 ≤ i.rating
        · have g1 : (1 : ℚ) ≤ i.rating := by linarith
          have p2 : 2 ≤ i.rating ∧ i.rating < 3 := ⟨h2, not_le.mp h3⟩
          have n1 : ¬(1 ≤ i.rating ∧ i.rating < 2) := fun h => by linarith [h.2]
          simp [h5, h4, h3, g1, p2, n1]
        · by_cases h1 : 1 ≤ i.rating
          · have p1 : 1 ≤ i.rating ∧ i.rating < 2 := ⟨h1, not_le.mp h2⟩
            simp [h5, h4, h3, h2, h1, p1]
          · have n4 : ¬(4 ≤ i.rating ∧ i.rating < 5) := fun h => absurd h.1 h4
            have n3 : ¬(3 ≤ i.rating ∧ i.rating < 4) := fun h => absurd h.1 h3
            have n2 : ¬(2 ≤ i.rating ∧ i.rating < 3) := fun h => absurd h.1 h2
            have n1 : ¬(1 ≤ i.rating ∧ i.rating < 2) := fun h => absurd h.1 h1
            simp [h5, h1, n4, n3, n2, n1]

theorem countP_buckets (data : List Business) :
    data.countP (fun i => decide (5 ≤ i.rating)) +
      data.countP (fun i => decide (4 ≤ i.rating ∧ i.rating < 5)) +
      data.countP (fun i => decide (3 ≤ i.rating ∧ i.rating < 4)) +
      data.countP (fun i => decide (2 ≤ i.rating ∧ i.rating < 3)) +
      data.countP (fun i => decide (1 ≤ i.rating ∧ i.rating < 2)) =
      data.countP (fun i => decide (1 ≤ i.rating)) := by
  induction data with
  | nil => simp
  | cons i rest ih =>
    simp only [List.countP_cons, decide_eq_true_eq]
    have := indicator_sum i
    omega

/-- C10: the business-listing histogram counts each business in at most
one bucket — `5 Stars` for rating at least 5, bucket `[k, k+1)` for k in
4..1, and none for rating below 1 — so the bucket counts sum to the number
of businesses rated at least 1, which is strictly less than the batch size
when some business is rated below 1. -/
theorem business_rating_histogram :
    (∀ data : List Business,
      ratingDistribution data =
        [("5 Stars".toList, data.countP fun i => decide (5 ≤ i.rating)),
         ("4-4.9 Stars".toList, data.countP fun i => decide (4 ≤ i.rating ∧ i.rating < 5)),
         ("3-3.9 Stars".toList, data.countP fun i => decide (3 ≤ i.rating ∧ i.rating < 4)),
         ("2-2.9 Stars".toList, data.countP fun i => decide (2 ≤ i.rating ∧ i.rating < 3)),
         ("1-1.9 Stars".toList, data.countP fun i => decide (1 ≤ i.rating ∧ i.rating < 2))] ∧
      ((ratingDistribution data).map (fun p => p.2)).sum =
        data.countP fun i => decide (1 ≤ i.rating)) ∧
    ((ratingDistribution [⟨"Z".toList, "c".toList, "a".toList, 0, 0, "w".toList, "p".toList,
        "$".toList, "h".toList, "s".toList, 0, 0⟩]).map (fun p => p.2)).sum <
      ([⟨"Z".toList, "c".toList, "a".toList, 0, 0, "w".toList, "p".toList,
        "$".toList, "h".toList, "s".toList, 0, 0⟩] : List Business).length := by
  refine ⟨fun data => ⟨?_, ?_⟩, ?_⟩
  · unfold ratingDistribution
    rw [foldl_tally]
    simp
  · unfold ratingDistribution
    rw [foldl_tally]
    simp only [List.map_cons, List.map_nil, List.sum_cons, List.sum_nil]
    have := countP_buckets data
    omega
  · have h0 : ¬((5 : ℚ) ≤ 0) := by norm_num
    have h1 : ¬((1 : ℚ) ≤ 0) := by norm_num
    simp [ratingDistribution, tally]
    norm_num

theorem foldlME_pure {α β : Type} (g : β → α → β) (f : β → α → Except (List Char) β)
    (hf : ∀ b x, f b x = Except.ok (g b x)) (l : List α) (b : β) :
    foldlME f b l = Except.ok (l.foldl g b) := by
  induction l generalizing b with
  | nil => rfl
  | cons x xs ih => simp [foldlME, hf, ih]

theorem filterME_pure {α : Type} (p : α → Bool) (f : α → Except (List Char) Bool)
    (hf : ∀ x, f x = Except.ok (p x)) (l : List α) :
    filterME f l = Except.ok (l.filter p) := by
  induction l with
  | nil => rfl
  | cons x xs ih => simp [filterME, hf, ih, List.filter_cons]

theorem combineRecordE_ok (c : Combined) (r : ReviewData) :
    combineRecordE c r = Except.ok (combineRecord c r) := by
  unfold combineRecordE combineRecord jsEntries
  cases r.distribution with
  | none => simp
  | some d => simp

/-- C8: on every input batch of the documented shape — any optional field
may be absent — the summary aggregator, the distribution combiner and the
filter projector return an ordinary result and never reach a thrown
exception (`Except.error`). -/
theorem aggregation_core_total (data : List ReviewData) (q : List Char) :
    summaryE data = Except.ok (summary data) ∧
      ratingDistributionDataE data = Except.ok (ratingDistributionData data) ∧
      filteredReviewsE q data = Except.ok (filteredReviews q data) := by
  refine ⟨?_, ?_, ?_⟩
  · unfold summaryE summary
    by_cases h : data.length = 0
    · simp [h]
    · have h1 : foldlME (fun sum item => Except.ok (sum + orZero item.count)) (0 : ℚ) data =
          Except.ok (sourceTotalReviews data) :=
        foldlME_pure (fun sum item => sum + orZero item.count) _ (fun _ _ => rfl) data 0
      have h2 : foldlME (fun sum item => Except.ok (sum + orZero item.rating * orZero item.count))
            (0 : ℚ) data = Except.ok (sourceWeightedTotal data) :=
        foldlME_pure (fun sum item => sum + orZero item.rating * orZero item.count) _
          (fun _ _ => rfl) data 0
      rw [if_neg h, if_neg h, h1, h2]
      simp [unroundedAvg]
  · unfold ratingDistributionDataE
    rw [foldlME_pure combineRecord combineRecordE combineRecordE_ok]
    simp [ratingDistributionData]
  · unfold filteredReviewsE filteredReviews
    by_cases h : q = []
    · simp [h]
    · rw [if_neg h, if_neg h, filterME_pure _ _ (fun _ => rfl)]
